import Mathlib

/-!
# circuit-echo: the bounded queues, the link reader, the log sink and the presentation loop

A shallow embedding of the Go sources

* `portconfig/port_config.go` (`SerialReader`),
* `logwriter/logwritter.go` (`Logger`, `Write`, `Messages`),
* `tui/tui.go` (`InitialModel`, `Init`, `Update`),
* `cmd/main.go` (`main`),

followed by the properties proved about them.

Conventions.  A Go `string` that carries raw link or log bytes is a `List Byte`.
A buffered Go channel is its capacity together with the list of buffered items,
oldest first.  Everything the environment decides (what a `port.Read` returns,
whether `ctx.Done()` is ready, whether a `select` ends in the send or in the
timer) is an explicit input of the embedded function.
-/

set_option maxRecDepth 20000

namespace CircuitEcho

/-! ## Bytes, chunks and buffered channels -/

/-- One byte. -/
abbrev Byte := Fin 256

/-- A Go `string` of raw bytes, the element type of both queues. -/
abbrev Chunk := List Byte

/-- A buffered Go channel `chan string`: capacity and buffered items, oldest first. -/
structure Chan where
  cap : Nat
  buf : List Chunk
deriving DecidableEq, Repr

/-- The Go expression `make(chan string, cap)`. -/
def makeChan (cap : Nat) : Chan := { cap := cap, buf := [] }

/-- A send can proceed without blocking exactly when the buffer is not full. -/
def Chan.hasSpace (c : Chan) : Bool := decide (c.buf.length < c.cap)

/-- The effect of a completed send `c <- x`: `x` becomes the newest item. -/
def Chan.push (c : Chan) (x : Chunk) : Chan := { c with buf := c.buf ++ [x] }

/-- Capacity of the log queue, `make(chan string, 1024)` in `Logger`. -/
def logQueueCap : Nat := 1024

/-! ## `portconfig.SerialReader` -/

/-- Length of the read buffer, `make([]byte, 1024)`. -/
def readBufLen : Nat := 1024

/-- What one call `port.Read(buf)` does: the bytes the driver copies into `buf`
starting at index 0, and the pair `(n, err)` it returns. -/
structure ReadResult where
  stored : List Byte
  n : Int
  err : Option String
deriving DecidableEq, Repr

/-- The read buffer after the driver has copied `stored` into it.  The callee cannot
change the length of the slice, so bytes beyond its length are not stored. -/
def storeInto (buf stored : List Byte) : List Byte :=
  (stored ++ buf.drop stored.length).take buf.length

/-- One trip round the `for` loop, as decided by the environment: whether
`ctx.Done()` is ready when polled, what `port.Read` returns if it is issued, and,
if a send is attempted, whether the `select` ends in the channel send (`true`) or
in the one second timer (`false`). -/
structure Iteration where
  ctxDone : Bool
  read : ReadResult
  sendWins : Bool
deriving DecidableEq, Repr

/-- How the reader goroutine ends.  `blockedInRead` is a read that never returns
(the script of environment decisions is exhausted); `sliceOutOfRange` is the
runtime fault of `buf[:n]` with `n` above the buffer length. -/
inductive ReaderExit where
  | canceled
  | readError
  | sliceOutOfRange
  | blockedInRead
deriving DecidableEq, Repr

/-- The observable behaviour of one run of `SerialReader`. -/
structure ReaderRun where
  sent : List Chunk
  dropped : List Chunk
  readsIssued : Nat
  logs : List String
  exit : ReaderExit
deriving DecidableEq, Repr

/-- Record a chunk sent on the serial channel in front of the rest of a run. -/
def ReaderRun.afterSend (c : Chunk) (r : ReaderRun) : ReaderRun :=
  { r with sent := c :: r.sent, readsIssued := r.readsIssued + 1 }

/-- Record a chunk dropped on timeout in front of the rest of a run. -/
def ReaderRun.afterDrop (c : Chunk) (r : ReaderRun) : ReaderRun :=
  { r with dropped := c :: r.dropped, readsIssued := r.readsIssued + 1,
           logs := "WARN Serial data channel is full, dropping data" :: r.logs }

/-- Record a read that sent nothing in front of the rest of a run. -/
def ReaderRun.afterEmptyRead (r : ReaderRun) : ReaderRun :=
  { r with readsIssued := r.readsIssued + 1 }

/-- The `for` loop of `SerialReader`, started with read buffer `buf`. -/
def SerialReaderLoop (buf : List Byte) : List Iteration → ReaderRun
  | [] => { sent := [], dropped := [], readsIssued := 0, logs := [], exit := .blockedInRead }
  | it :: rest =>
    if it.ctxDone then
      { sent := [], dropped := [], readsIssued := 0,
        logs := ["INFO Serial reader stopping"], exit := .canceled }
    else
      let buf1 := storeInto buf it.read.stored
      match it.read.err with
      | some _ =>
        { sent := [], dropped := [], readsIssued := 1,
          logs := ["ERROR Error reading from serial port",
                   "ERROR Please restart the application to recover."],
          exit := .readError }
      | none =>
        if 0 < it.read.n then
          if (buf1.length : Int) < it.read.n then
            { sent := [], dropped := [], readsIssued := 1, logs := [],
              exit := .sliceOutOfRange }
          else if it.sendWins then
            (SerialReaderLoop buf1 rest).afterSend (buf1.take it.read.n.toNat)
          else
            (SerialReaderLoop buf1 rest).afterDrop (buf1.take it.read.n.toNat)
        else
          (SerialReaderLoop buf1 rest).afterEmptyRead

/-- `SerialReader(ctx, port, serialDataChannel)`: allocate the zeroed buffer and loop. -/
def SerialReader (script : List Iteration) : ReaderRun :=
  SerialReaderLoop (List.replicate readBufLen 0) script

/-- The quiet environment: the context is never canceled and every send finds room in
the queue; only the read results vary. -/
def quietScript (reads : List ReadResult) : List Iteration :=
  reads.map fun r => { ctxDone := false, read := r, sendWins := true }

/-- Contents of the read buffer right after each read of a script has returned. -/
def readBuffers (buf : List Byte) : List ReadResult → List (List Byte)
  | [] => []
  | r :: rs => storeInto buf r.stored :: readBuffers (storeInto buf r.stored) rs

/-- The chunks the specification expects on the serial channel: pair every read with
the buffer it filled, keep the reads before the first error, of those keep the ones
with `n > 0`, and take `buf[:n]` of each. -/
def expectedChunks (buf : List Byte) (reads : List ReadResult) : List Chunk :=
  (((reads.zip (readBuffers buf reads)).takeWhile fun p => p.1.err.isNone).filter
      fun p => decide (0 < p.1.n)).map fun p => p.2.take p.1.n.toNat

/-- Number of reads the specification allows: every read before the first error,
and the failing read itself when there is one. -/
def expectedReads (reads : List ReadResult) : Nat :=
  (reads.takeWhile fun r => r.err.isNone).length +
    (if reads.all fun r => r.err.isNone then 0 else 1)

/-! ## The serial queue between `SerialReader` and the presentation loop

The producer side is the statement
`select { case serialDataChannel <- chunk: ; case <-time.After(1 * time.Second): warn }`
and the consumer side is `<-m.serialData`.  A send on a channel with room completes at
once (the timer cannot yet be ready).  A send on a full channel leaves the producer
blocked in the `select` until either the consumer receives, in which case the runtime
hands the oldest item to the consumer and moves the blocked chunk into the buffer, or
the timer fires, in which case the chunk is dropped. -/

/-- The package level variable `instance`: `none` is the nil pointer, `some q` is a
`log` value whose `msgs` channel is `q`. -/
structure LogSink where
  inst : Option Chan
deriving DecidableEq, Repr

/-- `Logger()`: create the singleton with a queue of capacity 1024 on first use. -/
def Logger (st : LogSink) : LogSink :=
  match st.inst with
  | none => { inst := some (makeChan logQueueCap) }
  | some _ => st

/-- `Messages()`: the receive end of the queue of the (possibly just created) singleton. -/
def Messages (st : LogSink) : LogSink × Option Chan :=
  ((Logger st), (Logger st).inst)

/-- How the wait of a `select` on a full channel ends: the consumer receives an item
before the timer is due, or the timer fires first. -/
inductive SelectWait where
  | consumerReceived
  | timerFired
deriving DecidableEq, Repr

/-- Whether a `Write` ended in the send case or in the timer case of its `select`. -/
inductive WriteFate where
  | enqueued
  | dropped
deriving DecidableEq, Repr

/-- Result of one `Write`: the sink afterwards, the returned pair `(int, error)`, which
branch of the `select` was taken, and the item the consumer took during the wait, if any. -/
structure WriteResult where
  sink : LogSink
  n : Int
  err : Option String
  fate : WriteFate
  delivered : Option Chunk
deriving DecidableEq, Repr

/-- `(log) Write(data)`.  `none` is the nil pointer dereference of `instance.msgs`
when `Logger` has never run.  With room in the queue the chunk is enqueued at once;
otherwise `w` says how the wait ends.  Both branches return `0, nil`. -/
def Write (st : LogSink) (data : List Byte) (w : SelectWait) : Option WriteResult :=
  match st.inst with
  | none => none
  | some q =>
    if q.hasSpace then
      some { sink := { inst := some (q.push data) }, n := 0, err := none,
             fate := .enqueued, delivered := none }
    else
      match w with
      | .timerFired =>
        some { sink := st, n := 0, err := none, fate := .dropped, delivered := none }
      | .consumerReceived =>
        match q.buf with
        | [] =>
          some { sink := st, n := 0, err := none, fate := .enqueued, delivered := some data }
        | x :: xs =>
          some { sink := { inst := some { q with buf := xs ++ [data] } }, n := 0, err := none,
                 fate := .enqueued, delivered := some x }

/-! ## Go `int` arithmetic

`int` is taken to be 64 bits wide; sums, differences and quotients wrap. -/

/-- Reduce an integer to the two-complement range of a 64 bit `int`. -/
def wrapInt (x : Int) : Int := (x + 2 ^ 63) % 2 ^ 64 - 2 ^ 63

/-- Go `a + b` on `int`. -/
def goAdd (a b : Int) : Int := wrapInt (a + b)

/-- Go `a - b` on `int`. -/
def goSub (a b : Int) : Int := wrapInt (a - b)

/-- Go `a / b` on `int`: the quotient is truncated toward zero. -/
def goDiv (a b : Int) : Int := wrapInt (Int.tdiv a b)

/-- Go `a % b` on `int`: the remainder has the sign of the dividend. -/
def goMod (a b : Int) : Int := Int.tmod a b

/-- The values an `int` can hold. -/
def IsGoInt (x : Int) : Prop := -(2 ^ 63) ≤ x ∧ x < 2 ^ 63

instance (x : Int) : Decidable (IsGoInt x) := by
  unfold IsGoInt
  exact inferInstance

/-! ## `tui`: the view state and the widgets it is built from -/

/-- A Go `string`. -/
abbrev GoString := List Byte

/-- The bytes of an ASCII string literal. -/
def ascii (s : String) : GoString := s.toList.map fun c => Fin.ofNat c.toNat

/-- The part of `textinput.Model` this program reads or writes. -/
structure TextInput where
  value : GoString
  focus : Bool
  Width : Int
  CharLimit : Int
  Placeholder : GoString
deriving DecidableEq, Repr

/-- `textinput.New()`: empty and blurred. -/
def textinputNew : TextInput :=
  { value := [], focus := false, Width := 0, CharLimit := 0, Placeholder := [] }

/-- `ti.Value()`. -/
def TextInput.Value (t : TextInput) : GoString := t.value

/-- `ti.SetValue(s)`.  The only call site passes the empty string. -/
def TextInput.SetValue (t : TextInput) (s : GoString) : TextInput := { t with value := s }

/-- `ti.Focus()`. -/
def TextInput.Focus (t : TextInput) : TextInput := { t with focus := true }

/-- `ti.Blur()`. -/
def TextInput.Blur (t : TextInput) : TextInput := { t with focus := false }

/-- `ti.Focused()`. -/
def TextInput.Focused (t : TextInput) : Bool := t.focus

/-- The part of `viewport.Model` this program reads or writes. -/
structure Viewport where
  Width : Int
  Height : Int
  content : GoString
  atBottom : Bool
deriving DecidableEq, Repr

/-- `viewport.New(width, height)`. -/
def viewportNew (width height : Int) : Viewport :=
  { Width := width, Height := height, content := [], atBottom := true }

/-- `vp.SetContent(s)`. -/
def Viewport.SetContent (v : Viewport) (s : GoString) : Viewport := { v with content := s }

/-- `vp.GotoBottom()`. -/
def Viewport.GotoBottom (v : Viewport) : Viewport := { v with atBottom := true }

/-- The link handle `serial.Port` once opened. -/
inductive Port where
  | link
deriving DecidableEq, Repr

/-- The `context.CancelFunc` created in `main`. -/
inductive CancelFunc where
  | cancel
deriving DecidableEq, Repr

/-- The two channels of the program. -/
inductive QueueId where
  | serial
  | log
deriving DecidableEq, Repr

/-- Messages dispatched to `Update`.  `KeyMsg` carries the value of `msg.String()`,
the only part of a key message `Update` looks at; `other` stands for every message
type `Update` has no case for (cursor blink, mouse, and so on). -/
inductive Msg where
  | WindowSizeMsg (Width Height : Int)
  | KeyMsg (name : String)
  | serialDataMsg (data : GoString)
  | logMsg (message : GoString)
  | other (tag : Nat)
deriving DecidableEq, Repr

/-- The commands a `tea.Cmd` can stand for in this program.  The two wait commands
record the channel they block on; `widget` is a command returned by a library widget. -/
inductive CmdAtom where
  | Quit
  | Blink
  | waitForSerialData (q : QueueId)
  | waitForLogMessage (q : QueueId)
  | widget (tag : Nat)
deriving DecidableEq, Repr

/-- A `tea.Cmd` as the list of commands the runtime will start; `nil` is the empty list. -/
abbrev Cmd := List CmdAtom

/-- `tea.Quit`. -/
def Quit : Cmd := [.Quit]

/-- `textinput.Blink`. -/
def Blink : Cmd := [.Blink]

/-- `tea.Batch(cmds...)`: all of the given commands, nil ones left out. -/
def Batch (cmds : List Cmd) : Cmd := cmds.flatten

/-- The view state, `type model struct`.  The two `*strings.Builder` fields are
represented by the text accumulated in them. -/
structure model where
  serialViewport : Viewport
  logViewport : Viewport
  textInput : TextInput
  serialContent : GoString
  logContent : GoString
  port : Option Port
  width : Int
  height : Int
  focused : Int
  serialData : QueueId
  logData : QueueId
  cancel : Option CancelFunc
deriving DecidableEq, Repr

/-- The `Update` methods of the two library widgets, which are not part of this
repository.  A widget sees only its own state and the message, and returns its new
state and possibly a command of its own. -/
structure Widgets where
  textInputUpdate : TextInput → Msg → TextInput × Option Nat
  viewportUpdate : Viewport → Msg → Viewport × Option Nat

/-- The command a widget returned, as a `tea.Cmd`. -/
def widgetCmd : Option Nat → Cmd
  | none => []
  | some tag => [.widget tag]

/-- Lines handed to `ionlog` by the presentation loop. -/
inductive LogLine where
  | closeFailed (err : String)
  | portNotOpen
  | writeFailed (err : String)
  | serialData (bytes : GoString)
deriving DecidableEq, Repr

/-- Everything `Update` does to the world outside the view state: the byte slices
passed to `port.Write`, the number of `port.Close` calls, the number of `cancel` calls,
and the lines logged. -/
structure Effects where
  written : List GoString
  closeCalls : Nat
  cancelCalls : Nat
  logs : List LogLine
deriving DecidableEq, Repr

/-- No effect yet. -/
def Effects.none : Effects := { written := [], closeCalls := 0, cancelCalls := 0, logs := [] }

/-- What the link would answer during one `Update`: the error of `port.Write` and the
error of `port.Close`, `none` for nil. -/
structure LinkEnv where
  writeErr : Option String
  closeErr : Option String
deriving DecidableEq, Repr

/-- `InitialModel(port, serialDataChannel, logDataChannel, cancel)`. -/
def InitialModel (port : Option Port) (serialDataChannel logDataChannel : QueueId)
    (cancel : Option CancelFunc) : model :=
  let ti := { textinputNew with
                Placeholder := ascii "Type your message and press Enter to send..." }
  let ti := ti.Focus
  let ti := { ti with CharLimit := 256 }
  let ti := { ti with Width := 50 }
  { textInput := ti
    serialViewport := viewportNew 50 20
    logViewport := viewportNew 50 20
    serialContent := []
    logContent := []
    port := port
    width := 0
    height := 0
    focused := 0
    serialData := serialDataChannel
    logData := logDataChannel
    cancel := cancel }

/-- `m.waitForSerialData()`: a command that blocks on `<-m.serialData`. -/
def model.waitForSerialData (m : model) : Cmd := [.waitForSerialData m.serialData]

/-- `m.waitForLogMessage()`: a command that blocks on `<-m.logData`. -/
def model.waitForLogMessage (m : model) : Cmd := [.waitForLogMessage m.logData]

/-- `m.Init()`. -/
def model.Init (m : model) : Cmd :=
  Batch [Blink, m.waitForSerialData, m.waitForLogMessage]

/-- The tail of `Update`: `switch m.focused` hands the message to the widget that has
the focus, adds the command it returns, and returns `m, tea.Batch(cmds...)`. -/
def forwardToFocused (W : Widgets) (fx : Effects) (m : model) (msg : Msg) (cmds : List Cmd) :
    Effects × model × Cmd :=
  if m.focused = 0 then
    let r := W.textInputUpdate m.textInput msg
    (fx, { m with textInput := r.1 }, Batch (cmds ++ [widgetCmd r.2]))
  else if m.focused = 1 then
    let r := W.viewportUpdate m.serialViewport msg
    (fx, { m with serialViewport := r.1 }, Batch (cmds ++ [widgetCmd r.2]))
  else if m.focused = 2 then
    let r := W.viewportUpdate m.logViewport msg
    (fx, { m with logViewport := r.1 }, Batch (cmds ++ [widgetCmd r.2]))
  else
    (fx, m, Batch cmds)

/-- `m.Update(msg)`. -/
def model.Update (W : Widgets) (env : LinkEnv) (fx : Effects) (m : model) (msg : Msg) :
    Effects × model × Cmd :=
  match msg with
  | .WindowSizeMsg Width Height =>
    let m : model := { m with width := Width }
    let m : model := { m with height := Height }
    let viewportHeight := goDiv (goSub m.height 11) 2
    let viewportWidth := goSub m.width 2
    let m : model := { m with logViewport := { m.logViewport with Height := goSub viewportHeight 5 } }
    let m : model := { m with serialViewport :=
                        { m.serialViewport with Height := goAdd viewportHeight 5 } }
    let m : model := { m with serialViewport := { m.serialViewport with Width := viewportWidth } }
    let m : model := { m with logViewport := { m.logViewport with Width := viewportWidth } }
    let m : model := { m with textInput := { m.textInput with Width := goSub viewportWidth 3 } }
    forwardToFocused W fx m msg []
  | .KeyMsg name =>
    if name = "ctrl+c" ∨ name = "esc" then
      match m.port with
      | none => (fx, m, Quit)
      | some _ =>
        let fx : Effects := { fx with closeCalls := fx.closeCalls + 1 }
        match env.closeErr with
        | some err => ({ fx with logs := fx.logs ++ [.closeFailed err] }, m, Quit)
        | none =>
          match m.cancel with
          | some _ => ({ fx with cancelCalls := fx.cancelCalls + 1 }, m, Quit)
          | none => (fx, m, Quit)
    else if name = "tab" then
      let m : model := { m with focused := goMod (goAdd m.focused 1) 3 }
      let m : model := if m.focused = 0 then { m with textInput := m.textInput.Focus }
                       else { m with textInput := m.textInput.Blur }
      forwardToFocused W fx m msg []
    else if name = "enter" then
      if ¬ (m.focused = 0 ∧ m.textInput.Value ≠ []) then
        forwardToFocused W fx m msg []
      else
        let data := m.textInput.Value ++ ascii "\r\n"
        match m.port with
        | none => forwardToFocused W { fx with logs := fx.logs ++ [.portNotOpen] } m msg []
        | some _ =>
          let fx : Effects := { fx with written := fx.written ++ [data] }
          match env.writeErr with
          | some err =>
            forwardToFocused W { fx with logs := fx.logs ++ [.writeFailed err] } m msg []
          | none =>
            let m : model := { m with serialContent := m.serialContent ++ (ascii "> " ++ data) }
            let m : model := { m with serialViewport := m.serialViewport.SetContent m.serialContent }
            let m : model := { m with serialViewport := m.serialViewport.GotoBottom }
            let m : model := { m with textInput := m.textInput.SetValue [] }
            forwardToFocused W fx m msg []
    else
      forwardToFocused W fx m msg []
  | .serialDataMsg data =>
    let m : model := { m with serialContent := m.serialContent ++ data }
    let m : model := { m with serialViewport := m.serialViewport.SetContent m.serialContent }
    let m : model := { m with serialViewport := m.serialViewport.GotoBottom }
    let fx : Effects := { fx with logs := fx.logs ++ [.serialData data] }
    forwardToFocused W fx m msg [m.waitForSerialData]
  | .logMsg message =>
    let m : model := { m with logContent := m.logContent ++ message }
    let m : model := { m with logViewport := m.logViewport.SetContent m.logContent }
    let m : model := { m with logViewport := m.logViewport.GotoBottom }
    forwardToFocused W fx m msg [m.waitForLogMessage]
  | .other _ => forwardToFocused W fx m msg []

/-! ## The runtime that drives `Update`, and `main`

`tea.NewProgram(m).Run()` starts the commands of `Init`, then repeatedly takes the next
message, calls `Update` on it and starts the commands `Update` returned.  `tea.Quit` is
a command like any other: the runtime runs it and ends the loop only when the message it
produces comes round, so messages that are already on their way are still dispatched to
`Update`, which keeps no record of having quit.  The events of a run are therefore all
the messages `Update` handled before `Run` returned.  A wait command stays blocked until
its channel delivers a chunk; it then returns its message and is gone. -/

/-- The channel a command blocks on, for the two wait commands. -/
def CmdAtom.queue : CmdAtom → Option QueueId
  | .waitForSerialData q => some q
  | .waitForLogMessage q => some q
  | _ => none

/-- The message a blocked wait command returns once its channel delivers `data`. -/
def CmdAtom.reply (data : GoString) : CmdAtom → Option Msg
  | .waitForSerialData _ => some (.serialDataMsg data)
  | .waitForLogMessage _ => some (.logMsg data)
  | _ => none

/-- The wait commands among the commands of a `tea.Cmd`. -/
def startedWaits (cmd : Cmd) : List CmdAtom := cmd.filter fun a => a.queue.isSome

/-- Number of blocked commands that are waiting on channel `q`. -/
def waitersOn (q : QueueId) (blocked : List CmdAtom) : Nat :=
  (blocked.filter fun a => decide (a.queue = some q)).length

/-- A running program: the effects so far, the current view state, the wait commands
that are blocked on a channel, and whether `tea.Quit` has been returned. -/
structure Program where
  fx : Effects
  m : model
  blocked : List CmdAtom
  quit : Bool
deriving DecidableEq, Repr

/-- What the runtime dispatches next: a key press (together with what the link would
answer to a write or close made while handling it), a window resize, a chunk delivered
by channel `q` to a command blocked on it, or a message of another kind. -/
inductive Event where
  | key (name : String) (env : LinkEnv)
  | resize (Width Height : Int)
  | chunk (q : QueueId) (data : GoString)
  | other (tag : Nat)
deriving DecidableEq, Repr

/-- A link that answers every call with success. -/
def linkOk : LinkEnv := { writeErr := none, closeErr := none }

/-- The program after `Update` returned `r`, with `blocked` the wait commands that
were still blocked when `Update` was called and `quit` telling whether `tea.Quit` had
been returned before. -/
def Program.afterUpdate (quit : Bool) (blocked : List CmdAtom) (r : Effects × model × Cmd) :
    Program :=
  { fx := r.1, m := r.2.1, blocked := blocked ++ startedWaits r.2.2,
    quit := quit || decide (CmdAtom.Quit ∈ r.2.2) }

/-- The program right after `Init`. -/
def startProgram (m : model) : Program :=
  { fx := Effects.none, m := m, blocked := startedWaits m.Init, quit := false }

/-- Dispatch one event: call `Update` on its message and start the commands returned.
A chunk can only be delivered to a command that is blocked on that channel. -/
def Program.step (W : Widgets) (p : Program) (ev : Event) : Program :=
  match ev with
  | .key name env =>
    Program.afterUpdate p.quit p.blocked (p.m.Update W env p.fx (.KeyMsg name))
  | .resize Width Height =>
    Program.afterUpdate p.quit p.blocked
      (p.m.Update W linkOk p.fx (.WindowSizeMsg Width Height))
  | .chunk q data =>
    match p.blocked.find? fun a => decide (a.queue = some q) with
    | none => p
    | some a =>
      match a.reply data with
      | none => p
      | some msg =>
        Program.afterUpdate p.quit (p.blocked.erase a) (p.m.Update W linkOk p.fx msg)
  | .other tag => Program.afterUpdate p.quit p.blocked (p.m.Update W linkOk p.fx (.other tag))

/-- `p.Run()` over a sequence of events. -/
def Program.run (W : Widgets) (p : Program) (evs : List Event) : Program :=
  evs.foldl (Program.step W) p

/-- Whether a key is one of the two quit bindings of `Update`. -/
def isQuitKey (name : String) : Bool := decide (name = "ctrl+c" ∨ name = "esc")

/-- Whether an event is a press of a quit key. -/
def Event.quitKey : Event → Bool
  | .key name _ => isQuitKey name
  | _ => false

/-- Number of quit key presses among the events of a run. -/
def quitKeys (evs : List Event) : Nat := (evs.filter Event.quitKey).length

/-- Number of `Close` calls the quit handler makes for a message: one for a quit key
while the handle is present, none otherwise. -/
def quitCloses (m : model) : Msg → Nat
  | .KeyMsg name => if isQuitKey name = true ∧ m.port.isSome = true then 1 else 0
  | _ => 0

/-- The three ways `tui.SetupConfiguration()` can return. -/
inductive SetupResult where
  | failed (err : String)
  | noSelection
  | selected
deriving DecidableEq, Repr

/-- Everything the environment decides during one run of the process. -/
structure ProcessEnv where
  setup : SetupResult
  openErr : Option String
  events : List Event
  runErr : Option String
  deferredCloseErr : Option String
deriving DecidableEq, Repr

/-- What one run of the process does: the lines printed to the error stream, the
number of `Close` calls made on the open link handle, whether `Close` was invoked
through the nil handle (a nil dereference), and whether the reader was started. -/
structure ProcessRun where
  stderr : List String
  closeCalls : Nat
  closeOnNilHandle : Bool
  readerStarted : Bool
deriving DecidableEq, Repr

/-- `main()`.  The deferred function that calls `port.Close()` is registered right
after `OpenSerialPort` returns and before its error is inspected, so it runs on every
return that follows, with `port` nil when the open failed. -/
def main (W : Widgets) (env : ProcessEnv) : ProcessRun :=
  match env.setup with
  | .failed err =>
    { stderr := ["Configuration error: " ++ err], closeCalls := 0,
      closeOnNilHandle := false, readerStarted := false }
  | .noSelection =>
    { stderr := ["No configuration selected, exiting."], closeCalls := 0,
      closeOnNilHandle := false, readerStarted := false }
  | .selected =>
    match env.openErr with
    | some err =>
      { stderr := ["Failed to open serial port: " ++ err], closeCalls := 0,
        closeOnNilHandle := true, readerStarted := false }
    | none =>
      let p := Program.run W
        (startProgram (InitialModel (some .link) .serial .log (some .cancel))) env.events
      let runLines := match env.runErr with
        | some err => ["Error running program: " ++ err]
        | none => []
      let closeLines := match env.deferredCloseErr with
        | some err => ["Failed to close serial port: " ++ err]
        | none => []
      { stderr := runLines ++ closeLines, closeCalls := p.fx.closeCalls + 1,
        closeOnNilHandle := false, readerStarted := true }

/-! ## A concrete pair of widgets

Used wherever a property is evaluated on a concrete input. -/

/-- A text input that appends a one character key to its value while it has the
focus and ignores everything else, and a viewport that scrolls up on the `up` key. -/
def sampleWidgets : Widgets :=
  { textInputUpdate := fun t msg =>
      match msg with
      | .KeyMsg name =>
        if t.focus ∧ name.length = 1 then ({ t with value := t.value ++ ascii name }, some 0)
        else (t, none)
      | _ => (t, none)
    viewportUpdate := fun v msg =>
      match msg with
      | .KeyMsg name => if name = "up" then ({ v with atBottom := false }, none) else (v, none)
      | _ => (v, none) }

/-! ## Sample inputs and definitions used to state the properties -/

/-- A script of five reads: three bytes, an empty read, one byte over the old buffer
contents, a failing read that also reports a byte, and a read that is never issued. -/
def sampleReads : List ReadResult :=
  [ { stored := [1, 2, 3], n := 3, err := none },
    { stored := [], n := 0, err := none },
    { stored := [9], n := 2, err := none },
    { stored := [7], n := 1, err := some "device removed" },
    { stored := [5], n := 1, err := none } ]

/-- A view state with focus on the input line, `hello` typed in, and the link open. -/
def helloModel : model :=
  { InitialModel (some .link) .serial .log (some .cancel) with
      textInput := { (InitialModel (some .link) .serial .log (some .cancel)).textInput with
                       value := ascii "hello" }
      serialContent := ascii "ready\r\n" }

/-- A link whose `Write` fails. -/
def linkWriteFails : LinkEnv := { writeErr := some "input/output error", closeErr := none }

/-- A link whose `Close` fails. -/
def linkCloseFails : LinkEnv := { writeErr := none, closeErr := some "bad file descriptor" }

/-- The view state after one press of the tab key. -/
def afterTab (W : Widgets) (m : model) : model :=
  (m.Update W linkOk Effects.none (.KeyMsg "tab")).2.1

/-- The view state after `Update` has handled a window resize to `w` by `h`. -/
def resized (W : Widgets) (env : LinkEnv) (fx : Effects) (m : model) (w h : Int) : model :=
  (m.Update W env fx (.WindowSizeMsg w h)).2.1

/-- The wait commands `Update` is expected to start for a message. -/
def expectedWaits (m : model) : Msg → List CmdAtom
  | .serialDataMsg _ => [.waitForSerialData m.serialData]
  | .logMsg _ => [.waitForLogMessage m.logData]
  | _ => []

/-- The invariant of a running program whose model was built over the serial and the log
channel: the channels stay in place and exactly the two wait commands are blocked. -/
def ProgramInv (p : Program) : Prop :=
  p.m.serialData = .serial ∧ p.m.logData = .log ∧
    p.blocked.Perm [.waitForSerialData .serial, .waitForLogMessage .log]

/-- A run in which the link opens and the user quits with the escape key. -/
def quitRun : ProcessEnv :=
  { setup := .selected, openErr := none, events := [.key "esc" linkOk], runErr := none,
    deferredCloseErr := none }

/-- A run in which the link opens, a chunk arrives, the user presses escape, the close
in the quit handler fails, and a second quit key is handled before the loop ends. -/
def quitTwiceRun : ProcessEnv :=
  { setup := .selected, openErr := none,
    events := [.chunk .serial [111, 107], .key "esc" linkCloseFails, .resize 80 24,
               .key "ctrl+c" linkOk],
    runErr := none, deferredCloseErr := some "port already closed" }

/-- A run in which opening the link fails. -/
def openFailsRun : ProcessEnv :=
  { setup := .selected, openErr := some "no such file or directory", events := [],
    runErr := none, deferredCloseErr := none }

/-! # Properties -/

/-! ## The link reader -/

theorem storeInto_length (buf stored : List Byte) :
    (storeInto buf stored).length = buf.length := by
  simp only [storeInto, List.length_take, List.length_append, List.length_drop]
  omega

theorem SerialReaderLoop_quiet (reads : List ReadResult) :
    ∀ buf : List Byte, (∀ r ∈ reads, r.n ≤ (buf.length : Int)) →
      (SerialReaderLoop buf (quietScript reads)).sent = expectedChunks buf reads ∧
      (SerialReaderLoop buf (quietScript reads)).dropped = [] ∧
      (SerialReaderLoop buf (quietScript reads)).readsIssued = expectedReads reads ∧
      (SerialReaderLoop buf (quietScript reads)).exit =
        (if reads.all fun r => r.err.isNone then ReaderExit.blockedInRead
         else ReaderExit.readError) := by
  induction reads with
  | nil => intro buf _; simp [quietScript, SerialReaderLoop, expectedChunks, expectedReads,
      readBuffers]
  | cons r rs ih =>
    intro buf h
    have hr : r.n ≤ (buf.length : Int) := h r (List.mem_cons_self _ _)
    have hlen := storeInto_length buf r.stored
    have ih1 := ih (storeInto buf r.stored) (by
      intro x hx
      rw [hlen]
      exact h x (List.mem_cons_of_mem _ hx))
    obtain ⟨i1, i2, i3, i4⟩ := ih1
    simp only [quietScript] at i1 i2 i3 i4
    cases herr : r.err with
    | some e =>
      simp [quietScript, SerialReaderLoop, expectedChunks, expectedReads, readBuffers, herr]
    | none =>
      by_cases hn : 0 < r.n
      · have hnot : ¬ ((storeInto buf r.stored).length : Int) < r.n := by
          rw [hlen]; omega
        simp [quietScript, SerialReaderLoop, expectedChunks, expectedReads, readBuffers, herr,
          hn, hnot, ReaderRun.afterSend, i1, i2, i3, i4]
        omega
      · simp [quietScript, SerialReaderLoop, expectedChunks, expectedReads, readBuffers, herr,
          hn, ReaderRun.afterEmptyRead, i1, i2, i3, i4]
        omega

theorem SerialReaderLoop_cons_congr (buf : List Byte) (it : Iteration) (a b : List Iteration)
    (h : SerialReaderLoop (storeInto buf it.read.stored) a
          = SerialReaderLoop (storeInto buf it.read.stored) b) :
    SerialReaderLoop buf (it :: a) = SerialReaderLoop buf (it :: b) := by
  simp only [SerialReaderLoop, h]

theorem SerialReaderLoop_stops_at_error (r : ReadResult) (e : String) (post : List ReadResult)
    (hr : r.err = some e) (pre : List ReadResult) :
    ∀ buf : List Byte,
      SerialReaderLoop buf (quietScript (pre ++ r :: post)) =
        SerialReaderLoop buf (quietScript (pre ++ [r])) := by
  induction pre with
  | nil => intro buf; simp [quietScript, SerialReaderLoop, hr]
  | cons x xs ih =>
    intro buf
    exact SerialReaderLoop_cons_congr buf _ _ _ (ih (storeInto buf x.stored))

/-- C1.  With the context never canceled and the serial queue never full, for every
script of read results that respect the buffer length, `SerialReader` sends exactly the
chunks `buf[:n]` of the reads with `n > 0` and no error that come before the first
failing read, one chunk per read and in read order; it drops nothing; it issues the
reads up to and including the first failing one and none after it; and it ends on the
first read error if there is one.  Whatever follows a failing read in the script has no
influence on the run. -/
theorem SerialReader_forwards_each_read (reads : List ReadResult)
    (hn : ∀ r ∈ reads, r.n ≤ (readBufLen : Int)) :
    (SerialReader (quietScript reads)).sent
        = expectedChunks (List.replicate readBufLen 0) reads ∧
      (SerialReader (quietScript reads)).dropped = [] ∧
      (SerialReader (quietScript reads)).readsIssued = expectedReads reads ∧
      (SerialReader (quietScript reads)).exit =
        (if reads.all fun r => r.err.isNone then ReaderExit.blockedInRead
         else ReaderExit.readError) ∧
      (∀ pre post r e, reads = pre ++ r :: post → r.err = some e →
        SerialReader (quietScript reads) = SerialReader (quietScript (pre ++ [r]))) := by
  have h := SerialReaderLoop_quiet reads (List.replicate readBufLen 0) (by
    intro r hr
    rw [List.length_replicate]
    exact hn r hr)
  refine ⟨h.1, h.2.1, h.2.2.1, h.2.2.2, ?_⟩
  intro pre post r e hreads hr
  subst hreads
  exact SerialReaderLoop_stops_at_error r e post hr pre _

/-- C1 on the sample script: the chunks sent are `[1, 2, 3]` and `[9, 2]`, four reads
are issued and the reader ends on the read error. -/
theorem SerialReader_forwards_each_read_witness :
    (∀ r ∈ sampleReads, r.n ≤ (readBufLen : Int)) ∧
      (SerialReader (quietScript sampleReads)).sent = [[1, 2, 3], [9, 2]] ∧
      (SerialReader (quietScript sampleReads)).readsIssued = 4 ∧
      (SerialReader (quietScript sampleReads)).exit = ReaderExit.readError := by
  have hn : ∀ r ∈ sampleReads, r.n ≤ (readBufLen : Int) := by decide
  have h := SerialReader_forwards_each_read sampleReads hn
  refine ⟨hn, ?_, ?_, ?_⟩
  · rw [h.1]; decide
  · rw [h.2.2.1]; decide
  · rw [h.2.2.2.1]; decide

/-! ## The serial queue -/

/-- C3.  For every byte slice, every state of the log queue and either way the wait on
a full queue can end, `Write` returns `0` and a nil error.  When the queue has room the
write is enqueued and the queue afterwards is the queue before with exactly `data`
appended at the tail.  The write is dropped exactly when the queue is full and the
timer fires first, and then the sink, queue contents included, is unchanged. -/
theorem Write_reports_success (st : LogSink) (q : Chan) (data : List Byte) (w : SelectWait)
    (hq : st.inst = some q) :
    ∃ r, Write st data w = some r ∧ r.n = 0 ∧ r.err = none ∧
      (q.hasSpace = true →
        r.fate = .enqueued ∧ r.sink.inst = some { q with buf := q.buf ++ [data] }) ∧
      (r.fate = .dropped ↔ (q.hasSpace = false ∧ w = .timerFired)) ∧
      (r.fate = .dropped → r.sink = st) := by
  by_cases hs : q.hasSpace = true
  · refine ⟨{ sink := { inst := some (q.push data) }, n := 0, err := none,
              fate := .enqueued, delivered := none }, ?_, rfl, rfl, fun _ => ⟨rfl, rfl⟩, ?_, ?_⟩
    · simp only [Write, hq, hs, if_true]
    · simp [hs]
    · simp
  · have hs2 : q.hasSpace = false := by simpa using hs
    cases w with
    | timerFired =>
      refine ⟨{ sink := st, n := 0, err := none, fate := .dropped, delivered := none },
        ?_, rfl, rfl, fun h => absurd h hs, ?_, fun _ => rfl⟩
      · simp only [Write, hq, hs2, Bool.false_eq_true, if_false]
      · simp [hs2]
    | consumerReceived =>
      cases hb : q.buf with
      | nil =>
        refine ⟨{ sink := st, n := 0, err := none, fate := .enqueued,
                  delivered := some data }, ?_, rfl, rfl, fun h => absurd h hs, ?_, ?_⟩
        · simp only [Write, hq, hs2, hb, Bool.false_eq_true, if_false]
        · simp
        · simp
      | cons x xs =>
        refine ⟨{ sink := { inst := some { q with buf := xs ++ [data] } }, n := 0,
                  err := none, fate := .enqueued, delivered := some x }, ?_, rfl, rfl,
                fun h => absurd h hs, ?_, ?_⟩
        · simp only [Write, hq, hs2, hb, Bool.false_eq_true, if_false]
        · simp
        · simp

/-- C3 on the freshly created sink: writing the two bytes `hi` succeeds and queues them. -/
theorem Write_reports_success_witness :
    (Logger { inst := none }).inst = some (makeChan logQueueCap) ∧
      ∃ r, Write (Logger { inst := none }) [104, 105] .timerFired = some r ∧ r.n = 0 ∧
        r.err = none ∧
        ((makeChan logQueueCap).hasSpace = true →
          r.fate = .enqueued ∧
          r.sink.inst = some { makeChan logQueueCap with
                                 buf := (makeChan logQueueCap).buf ++ [[104, 105]] }) ∧
        (r.fate = .dropped ↔ ((makeChan logQueueCap).hasSpace = false ∧
          SelectWait.timerFired = .timerFired)) ∧
        (r.fate = .dropped → r.sink = Logger { inst := none }) :=
  ⟨rfl, Write_reports_success (Logger { inst := none }) (makeChan logQueueCap) [104, 105]
    .timerFired rfl⟩

/-! ## The presentation loop: submit and quit -/

theorem sampleWidgets_enter (t : TextInput) :
    (sampleWidgets.textInputUpdate t (.KeyMsg "enter")).1.value = t.value := by
  have h : ¬ ("enter".length = 1) := by decide
  simp [sampleWidgets, h]

/-- C4.  With focus on the input line, a non-empty input value `v`, the link handle
present and `Write` succeeding, `Update` on the enter key passes exactly one byte slice
to `port.Write`, namely `v` followed by CR LF, appends exactly `> `, `v`, CR LF to the
serial transcript, and leaves the input value empty.  The text input widget belongs to
a library; it is assumed to leave its value alone on the enter key. -/
theorem Update_enter_sends_line (W : Widgets) (env : LinkEnv) (fx : Effects) (m : model)
    (v : GoString) (p : Port)
    (hfocus : m.focused = 0) (hv : m.textInput.Value = v) (hne : v ≠ [])
    (hport : m.port = some p) (hok : env.writeErr = none)
    (hW : ∀ t, (W.textInputUpdate t (.KeyMsg "enter")).1.value = t.value) :
    (m.Update W env fx (.KeyMsg "enter")).1.written = fx.written ++ [v ++ ascii "\r\n"] ∧
      (m.Update W env fx (.KeyMsg "enter")).2.1.serialContent
        = m.serialContent ++ (ascii "> " ++ v ++ ascii "\r\n") ∧
      (m.Update W env fx (.KeyMsg "enter")).2.1.textInput.Value = [] := by
  subst hv
  have hc : ¬ ("enter" = "ctrl+c" ∨ "enter" = "esc") := by decide
  have ht : ¬ ("enter" = "tab") := by decide
  have hne2 : m.textInput.value ≠ [] := hne
  simp [model.Update, hc, ht, hport, hok, forwardToFocused, hfocus, TextInput.Value,
    TextInput.SetValue, hW, hne2]

/-- C4 on `hello`: one write of `hello` CR LF, the transcript gains `> hello` CR LF and
the input line is empty afterwards. -/
theorem Update_enter_sends_line_witness :
    (helloModel.Update sampleWidgets linkOk Effects.none (.KeyMsg "enter")).1.written
        = [ascii "hello\r\n"] ∧
      (helloModel.Update sampleWidgets linkOk Effects.none (.KeyMsg "enter")).2.1.serialContent
        = ascii "ready\r\n> hello\r\n" ∧
      (helloModel.Update sampleWidgets linkOk Effects.none (.KeyMsg "enter")).2.1.textInput.Value
        = [] := by
  have h := Update_enter_sends_line sampleWidgets linkOk Effects.none helloModel (ascii "hello")
    .link (by decide) (by decide) (by decide) (by decide) (by decide)
    sampleWidgets_enter
  refine ⟨?_, ?_, h.2.2⟩
  · rw [h.1]; decide
  · rw [h.2.1]; decide

theorem widgetCmd_not_quit (c : Option Nat) : CmdAtom.Quit ∉ widgetCmd c := by
  cases c <;> simp [widgetCmd]

/-- C5.  With focus on the input line and a non-empty input value `v`, when the link
handle is absent or `Write` returns an error, `Update` on the enter key leaves the input
value equal to `v`, leaves the serial transcript unchanged and does not return
`tea.Quit`.  With the handle absent nothing is passed to `port.Write`; with the handle
present the one failed write is the only one.  `port.Close` is not called.  The text
input widget is assumed to leave its value alone on the enter key. -/
theorem Update_enter_keeps_unsent_line (W : Widgets) (env : LinkEnv) (fx : Effects) (m : model)
    (v : GoString)
    (hfocus : m.focused = 0) (hv : m.textInput.Value = v) (hne : v ≠ [])
    (hfail : m.port = none ∨ env.writeErr ≠ none)
    (hW : ∀ t, (W.textInputUpdate t (.KeyMsg "enter")).1.value = t.value) :
    (m.Update W env fx (.KeyMsg "enter")).2.1.textInput.Value = v ∧
      (m.Update W env fx (.KeyMsg "enter")).2.1.serialContent = m.serialContent ∧
      CmdAtom.Quit ∉ (m.Update W env fx (.KeyMsg "enter")).2.2 ∧
      (m.port = none → (m.Update W env fx (.KeyMsg "enter")).1.written = fx.written) ∧
      (m.port ≠ none → (m.Update W env fx (.KeyMsg "enter")).1.written
        = fx.written ++ [v ++ ascii "\r\n"]) ∧
      (m.Update W env fx (.KeyMsg "enter")).1.closeCalls = fx.closeCalls := by
  subst hv
  have hc : ¬ ("enter" = "ctrl+c" ∨ "enter" = "esc") := by decide
  have ht : ¬ ("enter" = "tab") := by decide
  have hne2 : m.textInput.value ≠ [] := hne
  cases hport : m.port with
  | none =>
    simp [model.Update, hc, ht, hport, forwardToFocused, hfocus, TextInput.Value, hW, hne2,
      Batch, widgetCmd_not_quit]
  | some p =>
    rw [hport] at hfail
    cases herr : env.writeErr with
    | none => simp [herr] at hfail
    | some e =>
      simp [model.Update, hc, ht, hport, herr, forwardToFocused, hfocus, TextInput.Value, hW,
        hne2, Batch, widgetCmd_not_quit]

/-- C5 on `hello` with a failing `Write`: the input line still holds `hello`, the
transcript is unchanged and the command returned is not quit. -/
theorem Update_enter_keeps_unsent_line_witness :
    (helloModel.Update sampleWidgets linkWriteFails Effects.none
        (.KeyMsg "enter")).2.1.textInput.Value = ascii "hello" ∧
      (helloModel.Update sampleWidgets linkWriteFails Effects.none
        (.KeyMsg "enter")).2.1.serialContent = ascii "ready\r\n" ∧
      CmdAtom.Quit ∉ (helloModel.Update sampleWidgets linkWriteFails Effects.none
        (.KeyMsg "enter")).2.2 := by
  have h := Update_enter_keeps_unsent_line sampleWidgets linkWriteFails Effects.none helloModel
    (ascii "hello") (by decide) (by decide) (by decide) (Or.inr (by decide)) sampleWidgets_enter
  exact ⟨h.1, h.2.1, h.2.2.1⟩

/-- C6.  For every view state, every answer of the link and both quit bindings,
`Update` returns exactly `tea.Quit` and the view state unchanged, and on the way calls
`port.Close` once when the handle is present, whether or not the close fails, and not
at all when the handle is absent. -/
theorem Update_quit_closes_once (W : Widgets) (env : LinkEnv) (fx : Effects) (m : model) :
    (m.Update W env fx (.KeyMsg "ctrl+c")).2.2 = Quit ∧
      (m.Update W env fx (.KeyMsg "esc")).2.2 = Quit ∧
      (m.Update W env fx (.KeyMsg "ctrl+c")).2.1 = m ∧
      (m.Update W env fx (.KeyMsg "esc")).2.1 = m ∧
      (m.Update W env fx (.KeyMsg "ctrl+c")).1.closeCalls
        = fx.closeCalls + (if m.port.isSome then 1 else 0) ∧
      (m.Update W env fx (.KeyMsg "esc")).1.closeCalls
        = fx.closeCalls + (if m.port.isSome then 1 else 0) := by
  have h1 : "ctrl+c" = "ctrl+c" ∨ "ctrl+c" = "esc" := Or.inl rfl
  have h2 : "esc" = "ctrl+c" ∨ "esc" = "esc" := Or.inr rfl
  cases hport : m.port with
  | none => simp [model.Update, h1, h2, hport]
  | some p =>
    cases hclose : env.closeErr with
    | some e => simp [model.Update, h1, h2, hport, hclose]
    | none =>
      cases hcancel : m.cancel with
      | none => simp [model.Update, h1, h2, hport, hclose, hcancel]
      | some c => simp [model.Update, h1, h2, hport, hclose, hcancel]

/-! ## The presentation loop: focus cycling -/

theorem Update_tab_focus (W : Widgets) (env : LinkEnv) (fx : Effects) (m : model)
    (hW : ∀ t, (W.textInputUpdate t (.KeyMsg "tab")).1.focus = t.focus) :
    (m.Update W env fx (.KeyMsg "tab")).2.1.focused = goMod (goAdd m.focused 1) 3 ∧
      ((m.Update W env fx (.KeyMsg "tab")).2.1.textInput.Focused = true
        ↔ goMod (goAdd m.focused 1) 3 = 0) := by
  have hc : ¬ ("tab" = "ctrl+c" ∨ "tab" = "esc") := by decide
  by_cases h0 : goMod (goAdd m.focused 1) 3 = 0
  · simp [model.Update, hc, forwardToFocused, h0, hW, TextInput.Focused, TextInput.Focus]
  · by_cases h1 : goMod (goAdd m.focused 1) 3 = 1
    · simp [model.Update, hc, forwardToFocused, h1, TextInput.Focused, TextInput.Blur]
    · by_cases h2 : goMod (goAdd m.focused 1) 3 = 2
      · simp [model.Update, hc, forwardToFocused, h2, TextInput.Focused, TextInput.Blur]
      · simp [model.Update, hc, forwardToFocused, h0, h1, h2, TextInput.Focused,
          TextInput.Blur]

theorem goMod_goAdd_focus (f : Int) (hf : f = 0 ∨ f = 1 ∨ f = 2) :
    goMod (goAdd f 1) 3 = (f + 1) % 3 := by
  rcases hf with h | h | h <;> subst h <;> decide

/-- C8.  For every view state whose focus indicator is 0 (input), 1 (serial view) or
2 (log view), `Update` on the tab key sets the focus to `(focus + 1) mod 3`, and after
it the text input is active exactly when the new focus is the input line.  Hence
successive tabs starting from the input line visit serial view, log view and input line
in that order, and three tabs restore the focus.  The text input widget is assumed not
to change its own active flag when it is handed the tab key. -/
theorem Update_tab_cycles_focus (W : Widgets) (env : LinkEnv) (fx : Effects) (m : model)
    (hf : m.focused = 0 ∨ m.focused = 1 ∨ m.focused = 2)
    (hW : ∀ t, (W.textInputUpdate t (.KeyMsg "tab")).1.focus = t.focus) :
    (m.Update W env fx (.KeyMsg "tab")).2.1.focused = (m.focused + 1) % 3 ∧
      ((m.Update W env fx (.KeyMsg "tab")).2.1.textInput.Focused = true
        ↔ (m.Update W env fx (.KeyMsg "tab")).2.1.focused = 0) ∧
      (m.focused = 0 → (afterTab W m).focused = 1 ∧ (afterTab W (afterTab W m)).focused = 2
        ∧ (afterTab W (afterTab W (afterTab W m))).focused = 0) ∧
      (afterTab W (afterTab W (afterTab W m))).focused = m.focused ∧
      (afterTab W (afterTab W (afterTab W m))).textInput.Focused
        = decide (m.focused = 0) := by
  have step : ∀ (x : model), (x.focused = 0 ∨ x.focused = 1 ∨ x.focused = 2) →
      (afterTab W x).focused = (x.focused + 1) % 3 ∧
      ((afterTab W x).textInput.Focused = true ↔ (afterTab W x).focused = 0) := by
    intro x hx
    have h := Update_tab_focus W linkOk Effects.none x hW
    rw [goMod_goAdd_focus x.focused hx] at h
    exact ⟨h.1, by rw [afterTab, h.1]; exact h.2⟩
  have h := Update_tab_focus W env fx m hW
  rw [goMod_goAdd_focus m.focused hf] at h
  have s1 := step m hf
  have r1 : (afterTab W m).focused = 0 ∨ (afterTab W m).focused = 1
      ∨ (afterTab W m).focused = 2 := by
    rw [s1.1]; omega
  have s2 := step (afterTab W m) r1
  have r2 : (afterTab W (afterTab W m)).focused = 0 ∨ (afterTab W (afterTab W m)).focused = 1
      ∨ (afterTab W (afterTab W m)).focused = 2 := by
    rw [s2.1]; omega
  have s3 := step (afterTab W (afterTab W m)) r2
  have h3 : (afterTab W (afterTab W (afterTab W m))).focused = m.focused := by
    rw [s3.1, s2.1, s1.1]; omega
  refine ⟨h.1, by rw [h.1]; exact h.2, ?_, h3, ?_⟩
  · intro h0
    refine ⟨by rw [s1.1]; omega, by rw [s2.1, s1.1]; omega, by rw [h3]; exact h0⟩
  · have s3b := s3.2
    rw [h3] at s3b
    by_cases h0 : m.focused = 0
    · simp [h0, s3b.2 h0]
    · have : ¬ (afterTab W (afterTab W (afterTab W m))).textInput.Focused = true :=
        fun hh => h0 (s3b.1 hh)
      simp [h0, this]

theorem sampleWidgets_tab (t : TextInput) :
    (sampleWidgets.textInputUpdate t (.KeyMsg "tab")).1.focus = t.focus := by
  have h : ¬ ("tab".length = 1) := by decide
  simp [sampleWidgets, h]

/-- C8 from the initial view state: the focus goes to the serial view and the text
input is blurred; after three tabs the focus is back on the input line and the text
input is active again. -/
theorem Update_tab_cycles_focus_witness :
    (((InitialModel (some .link) .serial .log (some .cancel)).Update sampleWidgets linkOk
        Effects.none (.KeyMsg "tab")).2.1.focused = 1) ∧
      (afterTab sampleWidgets (afterTab sampleWidgets (afterTab sampleWidgets
        (InitialModel (some .link) .serial .log (some .cancel))))).textInput.Focused = true := by
  have h := Update_tab_cycles_focus sampleWidgets linkOk Effects.none
    (InitialModel (some .link) .serial .log (some .cancel)) (Or.inl rfl) sampleWidgets_tab
  refine ⟨?_, ?_⟩
  · rw [h.1]; decide
  · rw [h.2.2.2.2]; decide

/-! ## The presentation loop: window resize -/

theorem wrapInt_of_range (x : Int) (h : IsGoInt x) : wrapInt x = x := by
  unfold IsGoInt at h
  unfold wrapInt
  omega

theorem tdiv_two (x : Int) : Int.tdiv x 2 = if 0 ≤ x then x / 2 else -((-x) / 2) := by
  by_cases h : 0 ≤ x
  · rw [if_pos h, Int.tdiv_eq_ediv h (by decide)]
  · rw [if_neg h]
    have hx : 0 ≤ -x := by omega
    have h2 := Int.tdiv_eq_ediv hx (show (0 : Int) ≤ 2 by decide)
    rw [Int.neg_tdiv] at h2
    omega

theorem wrapInt_range (x : Int) : IsGoInt (wrapInt x) := by
  unfold IsGoInt wrapInt
  omega

theorem wrapInt_sub_wrapInt (x y : Int) : wrapInt (wrapInt x - y) = wrapInt (x - y) := by
  unfold wrapInt
  omega

theorem goDiv_two_bounds (x : Int) (hx : IsGoInt x) :
    goDiv x 2 = Int.tdiv x 2 ∧ -(2 ^ 62) ≤ goDiv x 2 ∧ goDiv x 2 ≤ 2 ^ 62 := by
  unfold IsGoInt at hx
  have ht := tdiv_two x
  have hr : IsGoInt (Int.tdiv x 2) := by
    unfold IsGoInt
    rw [ht]
    split <;> omega
  have he : goDiv x 2 = Int.tdiv x 2 := wrapInt_of_range _ hr
  rw [he, ht]
  refine ⟨rfl, ?_, ?_⟩ <;> split <;> omega

theorem resized_fields (W : Widgets) (env : LinkEnv) (fx : Effects) (m : model) (w h : Int)
    (hWt : ∀ t, (W.textInputUpdate t (.WindowSizeMsg w h)).1.Width = t.Width)
    (hWv : ∀ v, (W.viewportUpdate v (.WindowSizeMsg w h)).1.Height = v.Height ∧
      (W.viewportUpdate v (.WindowSizeMsg w h)).1.Width = v.Width) :
    (resized W env fx m w h).serialViewport.Height = goAdd (goDiv (goSub h 11) 2) 5 ∧
      (resized W env fx m w h).logViewport.Height = goSub (goDiv (goSub h 11) 2) 5 ∧
      (resized W env fx m w h).serialViewport.Width = goSub w 2 ∧
      (resized W env fx m w h).logViewport.Width = goSub w 2 ∧
      (resized W env fx m w h).textInput.Width = goSub (goSub w 2) 3 := by
  by_cases h0 : m.focused = 0
  · simp [resized, model.Update, forwardToFocused, h0, hWt]
  · by_cases h1 : m.focused = 1
    · simp [resized, model.Update, forwardToFocused, h1, hWv]
    · by_cases h2 : m.focused = 2
      · simp [resized, model.Update, forwardToFocused, h2, hWv]
      · simp [resized, model.Update, forwardToFocused, h0, h1, h2]

/-- C10.  For every window resize to width `w` and height `h`, with
`q = (h - 11) / 2` computed by Go (truncated division on 64 bit `int`), `Update` sets
the serial viewport height to `q + 5`, the log viewport height to `q - 5`, both viewport
widths to `w - 2` and the input width to `w - 5` (the subtractions on `w` and `h` being
those of Go, which are the exact ones unless they leave the `int` range).  So the serial
viewport is always exactly 10 rows taller than the log viewport, and for `h >= 21` both
heights are non-negative and their sum is at most `h - 11`.  The library widgets are
assumed not to change their own width and height when handed the resize message. -/
theorem Update_resize_geometry (W : Widgets) (env : LinkEnv) (fx : Effects) (m : model)
    (w h : Int) (hw : IsGoInt w) (hh : IsGoInt h)
    (hWt : ∀ t, (W.textInputUpdate t (.WindowSizeMsg w h)).1.Width = t.Width)
    (hWv : ∀ v, (W.viewportUpdate v (.WindowSizeMsg w h)).1.Height = v.Height ∧
      (W.viewportUpdate v (.WindowSizeMsg w h)).1.Width = v.Width) :
    (resized W env fx m w h).serialViewport.Height = goDiv (goSub h 11) 2 + 5 ∧
      (resized W env fx m w h).logViewport.Height = goDiv (goSub h 11) 2 - 5 ∧
      (resized W env fx m w h).serialViewport.Width = goSub w 2 ∧
      (resized W env fx m w h).logViewport.Width = goSub w 2 ∧
      (resized W env fx m w h).textInput.Width = goSub w 5 ∧
      (resized W env fx m w h).serialViewport.Height
        = (resized W env fx m w h).logViewport.Height + 10 ∧
      (-(2 ^ 63) + 11 ≤ h → goDiv (goSub h 11) 2 = Int.tdiv (h - 11) 2) ∧
      (-(2 ^ 63) + 5 ≤ w → goSub w 2 = w - 2 ∧ goSub w 5 = w - 5) ∧
      (21 ≤ h →
        0 ≤ (resized W env fx m w h).logViewport.Height ∧
        0 ≤ (resized W env fx m w h).serialViewport.Height ∧
        (resized W env fx m w h).serialViewport.Height
          + (resized W env fx m w h).logViewport.Height ≤ h - 11) := by
  obtain ⟨f1, f2, f3, f4, f5⟩ := resized_fields W env fx m w h hWt hWv
  have hb := goDiv_two_bounds (goSub h 11) (wrapInt_range _)
  have e1 : goAdd (goDiv (goSub h 11) 2) 5 = goDiv (goSub h 11) 2 + 5 :=
    wrapInt_of_range _ (by unfold IsGoInt; omega)
  have e2 : goSub (goDiv (goSub h 11) 2) 5 = goDiv (goSub h 11) 2 - 5 :=
    wrapInt_of_range _ (by unfold IsGoInt; omega)
  have e3 : goSub (goSub w 2) 3 = goSub w 5 := by
    unfold goSub
    rw [wrapInt_sub_wrapInt]
    congr 1
    omega
  rw [f1, f2, f3, f4, f5, e1, e2, e3]
  unfold IsGoInt at hw hh
  refine ⟨rfl, rfl, rfl, rfl, rfl, by omega, ?_, ?_, ?_⟩
  · intro hlo
    have : goSub h 11 = h - 11 := wrapInt_of_range _ (by unfold IsGoInt; omega)
    rw [hb.1, this]
  · intro hlo
    exact ⟨wrapInt_of_range _ (by unfold IsGoInt; omega),
      wrapInt_of_range _ (by unfold IsGoInt; omega)⟩
  · intro h21
    have hs : goSub h 11 = h - 11 := wrapInt_of_range _ (by unfold IsGoInt; omega)
    have hq := hb.1
    rw [hs] at hq ⊢
    rw [hq, tdiv_two]
    have hpos : 0 ≤ h - 11 := by omega
    rw [if_pos hpos]
    omega

/-- C10 on a terminal of 80 columns and 24 rows: the serial viewport gets 11 rows, the
log viewport 1 row, both are 78 wide and the input line is 75 wide. -/
theorem Update_resize_geometry_witness :
    (resized sampleWidgets linkOk Effects.none
        (InitialModel (some .link) .serial .log (some .cancel)) 80 24).serialViewport.Height = 11 ∧
      (resized sampleWidgets linkOk Effects.none
        (InitialModel (some .link) .serial .log (some .cancel)) 80 24).logViewport.Height = 1 ∧
      (resized sampleWidgets linkOk Effects.none
        (InitialModel (some .link) .serial .log (some .cancel)) 80 24).serialViewport.Width = 78 ∧
      (resized sampleWidgets linkOk Effects.none
        (InitialModel (some .link) .serial .log (some .cancel)) 80 24).textInput.Width = 75 := by
  have h := Update_resize_geometry sampleWidgets linkOk Effects.none
    (InitialModel (some .link) .serial .log (some .cancel)) 80 24 (by decide) (by decide)
    (by intro t; simp [sampleWidgets]) (by intro v; simp [sampleWidgets])
  refine ⟨?_, ?_, ?_, ?_⟩
  · rw [h.1]; decide
  · rw [h.2.1]; decide
  · rw [h.2.2.1]; decide
  · rw [h.2.2.2.2.1]; decide

/-! ## The presentation loop: queue waits -/

theorem startedWaits_widgetCmd (c : Option Nat) : startedWaits (widgetCmd c) = [] := by
  cases c <;> simp [widgetCmd, startedWaits, CmdAtom.queue]

theorem startedWaits_append (a b : Cmd) :
    startedWaits (a ++ b) = startedWaits a ++ startedWaits b := by
  simp [startedWaits]

theorem Batch_snoc (cmds : List Cmd) (c : Cmd) : Batch (cmds ++ [c]) = Batch cmds ++ c := by
  simp [Batch]

theorem forward_fx (W : Widgets) (fx : Effects) (m : model) (msg : Msg) (cmds : List Cmd) :
    (forwardToFocused W fx m msg cmds).1 = fx := by
  unfold forwardToFocused
  split_ifs <;> rfl

theorem forward_channels (W : Widgets) (fx : Effects) (m : model) (msg : Msg)
    (cmds : List Cmd) :
    (forwardToFocused W fx m msg cmds).2.1.serialData = m.serialData ∧
      (forwardToFocused W fx m msg cmds).2.1.logData = m.logData ∧
      (forwardToFocused W fx m msg cmds).2.1.port = m.port := by
  unfold forwardToFocused
  split_ifs <;> exact ⟨rfl, rfl, rfl⟩

theorem forward_waits (W : Widgets) (fx : Effects) (m : model) (msg : Msg) (cmds : List Cmd) :
    startedWaits (forwardToFocused W fx m msg cmds).2.2 = startedWaits (Batch cmds) := by
  unfold forwardToFocused
  split_ifs <;>
    simp only [Batch_snoc, startedWaits_append, startedWaits_widgetCmd, List.append_nil]

theorem forward_quit (W : Widgets) (fx : Effects) (m : model) (msg : Msg) (cmds : List Cmd) :
    CmdAtom.Quit ∈ (forwardToFocused W fx m msg cmds).2.2 ↔ CmdAtom.Quit ∈ Batch cmds := by
  unfold forwardToFocused
  split_ifs <;>
    simp [Batch_snoc, widgetCmd_not_quit]

/-- What every call of `Update` does to the channels, the handle, the started waits and
the count of close calls. -/
theorem Update_summary (W : Widgets) (env : LinkEnv) (fx : Effects) (m : model) (msg : Msg) :
    (m.Update W env fx msg).2.1.serialData = m.serialData ∧
      (m.Update W env fx msg).2.1.logData = m.logData ∧
      (m.Update W env fx msg).2.1.port = m.port ∧
      startedWaits (m.Update W env fx msg).2.2 = expectedWaits m msg ∧
      ((CmdAtom.Quit ∉ (m.Update W env fx msg).2.2 ∧
          (m.Update W env fx msg).1.closeCalls = fx.closeCalls) ∨
        ((m.Update W env fx msg).2.2 = Quit ∧
          (m.Update W env fx msg).1.closeCalls ≤ fx.closeCalls + 1)) := by
  cases msg with
  | WindowSizeMsg w h =>
    simp only [model.Update, expectedWaits]
    refine ⟨(forward_channels _ _ _ _ _).1, (forward_channels _ _ _ _ _).2.1,
      (forward_channels _ _ _ _ _).2.2, ?_, Or.inl ⟨?_, ?_⟩⟩
    · rw [forward_waits]; rfl
    · rw [forward_quit]; simp [Batch]
    · rw [forward_fx]
  | KeyMsg name =>
    by_cases hq : name = "ctrl+c" ∨ name = "esc"
    · simp only [model.Update, hq, if_true, expectedWaits]
      cases hp : m.port with
      | none => simp [Quit, startedWaits, CmdAtom.queue, hp]
      | some p =>
        cases hce : env.closeErr with
        | some e => simp [Quit, startedWaits, CmdAtom.queue, hp]
        | none =>
          cases hca : m.cancel with
          | none => simp [Quit, startedWaits, CmdAtom.queue, hp]
          | some c => simp [Quit, startedWaits, CmdAtom.queue, hp]
    · by_cases ht : name = "tab"
      · subst ht
        simp only [model.Update, hq, if_true, if_false, expectedWaits]
        refine ⟨?_, ?_, ?_, ?_, Or.inl ⟨?_, ?_⟩⟩
        · rw [(forward_channels _ _ _ _ _).1]; split_ifs <;> rfl
        · rw [(forward_channels _ _ _ _ _).2.1]; split_ifs <;> rfl
        · rw [(forward_channels _ _ _ _ _).2.2]; split_ifs <;> rfl
        · rw [forward_waits]; rfl
        · rw [forward_quit]; simp [Batch]
        · rw [forward_fx]
      · by_cases he : name = "enter"
        · subst he
          simp only [model.Update, hq, ht, if_true, if_false, expectedWaits, ite_not]
          split_ifs
          · cases hp : m.port with
            | none =>
              simp only []
              refine ⟨(forward_channels _ _ _ _ _).1, (forward_channels _ _ _ _ _).2.1,
                ?_, ?_, Or.inl ⟨?_, ?_⟩⟩
              · rw [(forward_channels _ _ _ _ _).2.2]; exact hp
              · rw [forward_waits]; rfl
              · rw [forward_quit]; simp [Batch]
              · rw [forward_fx]
            | some p =>
              cases env.writeErr with
              | some e =>
                simp only []
                refine ⟨(forward_channels _ _ _ _ _).1, (forward_channels _ _ _ _ _).2.1,
                  ?_, ?_, Or.inl ⟨?_, ?_⟩⟩
                · rw [(forward_channels _ _ _ _ _).2.2]; exact hp
                · rw [forward_waits]; rfl
                · rw [forward_quit]; simp [Batch]
                · rw [forward_fx]
              | none =>
                simp only []
                refine ⟨(forward_channels _ _ _ _ _).1, (forward_channels _ _ _ _ _).2.1,
                  ?_, ?_, Or.inl ⟨?_, ?_⟩⟩
                · rw [(forward_channels _ _ _ _ _).2.2]
                · rw [forward_waits]; rfl
                · rw [forward_quit]; simp [Batch]
                · rw [forward_fx]
          · refine ⟨(forward_channels _ _ _ _ _).1, (forward_channels _ _ _ _ _).2.1,
              (forward_channels _ _ _ _ _).2.2, ?_, Or.inl ⟨?_, ?_⟩⟩
            · rw [forward_waits]; rfl
            · rw [forward_quit]; simp [Batch]
            · rw [forward_fx]
        · simp only [model.Update, hq, ht, he, if_false, expectedWaits]
          refine ⟨(forward_channels _ _ _ _ _).1, (forward_channels _ _ _ _ _).2.1,
            (forward_channels _ _ _ _ _).2.2, ?_, Or.inl ⟨?_, ?_⟩⟩
          · rw [forward_waits]; rfl
          · rw [forward_quit]; simp [Batch]
          · rw [forward_fx]
  | serialDataMsg d =>
    simp only [model.Update, expectedWaits]
    refine ⟨(forward_channels _ _ _ _ _).1, (forward_channels _ _ _ _ _).2.1,
      (forward_channels _ _ _ _ _).2.2, ?_, Or.inl ⟨?_, ?_⟩⟩
    · rw [forward_waits]; simp [Batch, model.waitForSerialData, startedWaits, CmdAtom.queue]
    · rw [forward_quit]; simp [Batch, model.waitForSerialData]
    · rw [forward_fx]
  | logMsg d =>
    simp only [model.Update, expectedWaits]
    refine ⟨(forward_channels _ _ _ _ _).1, (forward_channels _ _ _ _ _).2.1,
      (forward_channels _ _ _ _ _).2.2, ?_, Or.inl ⟨?_, ?_⟩⟩
    · rw [forward_waits]; simp [Batch, model.waitForLogMessage, startedWaits, CmdAtom.queue]
    · rw [forward_quit]; simp [Batch, model.waitForLogMessage]
    · rw [forward_fx]
  | other tag =>
    simp only [model.Update, expectedWaits]
    refine ⟨(forward_channels _ _ _ _ _).1, (forward_channels _ _ _ _ _).2.1,
      (forward_channels _ _ _ _ _).2.2, ?_, Or.inl ⟨?_, ?_⟩⟩
    · rw [forward_waits]; rfl
    · rw [forward_quit]; simp [Batch]
    · rw [forward_fx]

theorem afterUpdate_inv (W : Widgets) (env : LinkEnv) (fx : Effects) (m : model) (msg : Msg)
    (quit : Bool) (blocked : List CmdAtom) (hs : m.serialData = .serial)
    (hl : m.logData = .log)
    (hb : (blocked ++ expectedWaits m msg).Perm
      [.waitForSerialData .serial, .waitForLogMessage .log]) :
    ProgramInv (Program.afterUpdate quit blocked (m.Update W env fx msg)) := by
  obtain ⟨u1, u2, _, u4, _⟩ := Update_summary W env fx m msg
  exact ⟨by simp only [Program.afterUpdate]; rw [u1, hs],
    by simp only [Program.afterUpdate]; rw [u2, hl],
    by simp only [Program.afterUpdate]; rw [u4]; exact hb⟩

theorem startProgram_inv (port : Option Port) (cancel : Option CancelFunc) :
    ProgramInv (startProgram (InitialModel port .serial .log cancel)) := by
  refine ⟨rfl, rfl, ?_⟩
  simp [startProgram, model.Init, Batch, Blink, model.waitForSerialData,
    model.waitForLogMessage, startedWaits, CmdAtom.queue, InitialModel]

theorem step_inv (W : Widgets) (p : Program) (ev : Event) (h : ProgramInv p) :
    ProgramInv (Program.step W p ev) := by
  unfold Program.step
  obtain ⟨hs, hl, hb⟩ := h
  cases ev with
  | key name env =>
    exact afterUpdate_inv W env p.fx p.m _ _ p.blocked hs hl (by simpa [expectedWaits] using hb)
  | resize w h =>
    exact afterUpdate_inv W _ p.fx p.m _ _ p.blocked hs hl (by simpa [expectedWaits] using hb)
  | other tag =>
    exact afterUpdate_inv W _ p.fx p.m _ _ p.blocked hs hl (by simpa [expectedWaits] using hb)
  | chunk q data =>
    simp only []
    cases hf : p.blocked.find? fun a => decide (a.queue = some q) with
    | none =>
      show ProgramInv p
      exact ⟨hs, hl, hb⟩
    | some a =>
      simp only []
      have hmem : a ∈ p.blocked := List.mem_of_find?_eq_some hf
      have hmem2 := hb.mem_iff.mp hmem
      have herase := hb.erase a
      simp only [List.mem_cons, List.mem_singleton, List.not_mem_nil, or_false] at hmem2
      rcases hmem2 with ha | ha
      · subst ha
        simp only [CmdAtom.reply]
        refine afterUpdate_inv W _ p.fx p.m _ _ _ hs hl ?_
        simp only [expectedWaits, hs]
        have e : [CmdAtom.waitForSerialData .serial, CmdAtom.waitForLogMessage .log].erase
            (CmdAtom.waitForSerialData .serial) = [CmdAtom.waitForLogMessage .log] := by
          decide
        rw [e] at herase
        exact (herase.append_right _).trans (List.Perm.swap _ _ [])
      · subst ha
        simp only [CmdAtom.reply]
        refine afterUpdate_inv W _ p.fx p.m _ _ _ hs hl ?_
        simp only [expectedWaits, hl]
        have e : [CmdAtom.waitForSerialData .serial, CmdAtom.waitForLogMessage .log].erase
            (CmdAtom.waitForLogMessage .log) = [CmdAtom.waitForSerialData .serial] := by
          decide
        rw [e] at herase
        exact herase.append_right _

theorem run_inv (W : Widgets) (evs : List Event) :
    ∀ p : Program, ProgramInv p → ProgramInv (Program.run W p evs) := by
  induction evs with
  | nil => intro p h; exact h
  | cons e es ih =>
    intro p h
    exact ih _ (step_inv W p e h)

theorem waitersOn_of_perm (blocked : List CmdAtom)
    (h : blocked.Perm [.waitForSerialData .serial, .waitForLogMessage .log]) :
    waitersOn .serial blocked = 1 ∧ waitersOn .log blocked = 1 := by
  unfold waitersOn
  constructor
  · rw [(h.filter _).length_eq]; decide
  · rw [(h.filter _).length_eq]; decide

/-- C9.  With the blocked wait commands as explicit state: `Init` starts exactly one
wait on the serial channel of the model and one on its log channel; `Update` starts
exactly one wait on the serial channel and none on the log channel when it consumes a
serial chunk, exactly one wait on the log channel and none on the serial channel when it
consumes a log chunk, and no wait at all for a key or a resize; hence after every
sequence of events dispatched to the program that `main` builds, exactly one command is
waiting on the serial queue and exactly one on the log queue. -/
theorem exactly_one_wait_per_queue (W : Widgets) (env : LinkEnv) (fx : Effects) (m : model)
    (port : Option Port) (cancel : Option CancelFunc) (evs : List Event)
    (data : GoString) (name : String) (w h : Int) :
    startedWaits m.Init = [.waitForSerialData m.serialData, .waitForLogMessage m.logData] ∧
      startedWaits (m.Update W env fx (.serialDataMsg data)).2.2
        = [.waitForSerialData m.serialData] ∧
      startedWaits (m.Update W env fx (.logMsg data)).2.2
        = [.waitForLogMessage m.logData] ∧
      startedWaits (m.Update W env fx (.KeyMsg name)).2.2 = [] ∧
      startedWaits (m.Update W env fx (.WindowSizeMsg w h)).2.2 = [] ∧
      waitersOn .serial
        (Program.run W (startProgram (InitialModel port .serial .log cancel)) evs).blocked = 1 ∧
      waitersOn .log
        (Program.run W (startProgram (InitialModel port .serial .log cancel)) evs).blocked = 1 := by
  have hinv := run_inv W evs _ (startProgram_inv port cancel)
  have hw := waitersOn_of_perm _ hinv.2.2
  refine ⟨?_, (Update_summary W env fx m _).2.2.2.1, (Update_summary W env fx m _).2.2.2.1,
    (Update_summary W env fx m _).2.2.2.1, (Update_summary W env fx m _).2.2.2.1, hw.1, hw.2⟩
  simp [model.Init, Batch, Blink, model.waitForSerialData, model.waitForLogMessage,
    startedWaits, CmdAtom.queue]

/-! ## The whole process: how often the link handle is closed -/

/-- C7 as stated fails: in the run where the link opens and the user quits, `Close` is
called twice on the link handle, once by the quit handler and once by the deferred
cleanup of `main`. -/
theorem main_closes_twice_on_quit : (main sampleWidgets quitRun).closeCalls = 2 := by
  decide

/-- In the run where opening the link fails, the deferred cleanup of `main` invokes
`Close` through the nil handle. -/
theorem main_open_failure_closes_nil_handle :
    (main sampleWidgets openFailsRun).closeOnNilHandle = true ∧
      (main sampleWidgets openFailsRun).stderr
        = ["Failed to open serial port: no such file or directory"] := by
  decide

theorem Update_closeCalls (W : Widgets) (env : LinkEnv) (fx : Effects) (m : model)
    (msg : Msg) :
    (m.Update W env fx msg).1.closeCalls = fx.closeCalls + quitCloses m msg := by
  cases msg with
  | KeyMsg name =>
    by_cases hq : name = "ctrl+c" ∨ name = "esc"
    · have hk : isQuitKey name = true := by simp [isQuitKey, hq]
      simp only [model.Update, hq, if_true, quitCloses, hk]
      cases hp : m.port with
      | none => simp
      | some p =>
        cases hce : env.closeErr with
        | some e => simp
        | none =>
          cases hca : m.cancel with
          | none => simp
          | some c => simp
    · have hz : quitCloses m (.KeyMsg name) = 0 := by simp [quitCloses, isQuitKey, hq]
      rw [hz, Nat.add_zero]
      by_cases ht : name = "tab"
      · subst ht
        simp only [model.Update, hq, if_true, if_false]
        rw [forward_fx]
      · by_cases he : name = "enter"
        · subst he
          simp only [model.Update, hq, ht, if_true, if_false, ite_not]
          split_ifs
          · cases hp : m.port with
            | none => simp only []; rw [forward_fx]
            | some p =>
              cases hw : env.writeErr with
              | some e => simp only []; rw [forward_fx]
              | none => simp only []; rw [forward_fx]
          · rw [forward_fx]
        · simp only [model.Update, hq, ht, he, if_false]
          rw [forward_fx]
  | WindowSizeMsg w h => simp only [model.Update, quitCloses]; rw [forward_fx]; rfl
  | serialDataMsg d => simp only [model.Update, quitCloses]; rw [forward_fx]; rfl
  | logMsg d => simp only [model.Update, quitCloses]; rw [forward_fx]; rfl
  | other tag => simp only [model.Update, quitCloses]; rw [forward_fx]; rfl

theorem step_closeCalls (W : Widgets) (p : Program) (ev : Event) :
    (Program.step W p ev).m.port = p.m.port ∧
      (Program.step W p ev).fx.closeCalls
        = p.fx.closeCalls + (if ev.quitKey = true ∧ p.m.port.isSome = true then 1 else 0) := by
  unfold Program.step
  cases ev with
  | key name env =>
    exact ⟨(Update_summary W env p.fx p.m _).2.2.1, Update_closeCalls W env p.fx p.m _⟩
  | resize w h =>
    exact ⟨(Update_summary W _ p.fx p.m _).2.2.1, Update_closeCalls W _ p.fx p.m _⟩
  | other tag =>
    exact ⟨(Update_summary W _ p.fx p.m _).2.2.1, Update_closeCalls W _ p.fx p.m _⟩
  | chunk q data =>
    simp only [Event.quitKey, Bool.false_eq_true, false_and, if_false, Nat.add_zero]
    cases p.blocked.find? fun a => decide (a.queue = some q) with
    | none => exact ⟨rfl, rfl⟩
    | some a =>
      cases a with
      | waitForSerialData c =>
        exact ⟨(Update_summary W _ p.fx p.m _).2.2.1, Update_closeCalls W _ p.fx p.m _⟩
      | waitForLogMessage c =>
        exact ⟨(Update_summary W _ p.fx p.m _).2.2.1, Update_closeCalls W _ p.fx p.m _⟩
      | Quit => exact ⟨rfl, rfl⟩
      | Blink => exact ⟨rfl, rfl⟩
      | widget tag => exact ⟨rfl, rfl⟩

theorem run_closeCalls (W : Widgets) (evs : List Event) :
    ∀ p : Program, p.m.port.isSome = true →
      (Program.run W p evs).fx.closeCalls = p.fx.closeCalls + quitKeys evs := by
  induction evs with
  | nil => intro p _; simp [Program.run, quitKeys]
  | cons e es ih =>
    intro p hp
    have hstep := step_closeCalls W p e
    have ih1 := ih (Program.step W p e) (by rw [hstep.1]; exact hp)
    simp only [Program.run, List.foldl_cons] at ih1 ⊢
    rw [ih1, hstep.2]
    by_cases hk : e.quitKey = true
    · simp [quitKeys, List.filter_cons, hk, hp]; omega
    · simp [quitKeys, List.filter_cons, hk]

/-- C7, amended.  In every run of the process other than one in which opening the link
fails: `Close` is never invoked through a nil handle; when the link was opened, the quit
handler of the presentation loop calls `Close` once for every quit key it handles, with
no limit of one, and the deferred cleanup of `main` calls it exactly once more, so the
number of calls is the number of quit keys handled plus one; and when no configuration
is obtained there is no call at all and the reader is not started. -/
theorem main_close_calls (W : Widgets) (env : ProcessEnv)
    (hopen : env.setup = .selected → env.openErr = none) :
    (main W env).closeOnNilHandle = false ∧
      (env.setup = .selected →
        (Program.run W (startProgram (InitialModel (some .link) .serial .log (some .cancel)))
              env.events).fx.closeCalls = quitKeys env.events ∧
        (main W env).closeCalls = quitKeys env.events + 1 ∧
        (main W env).readerStarted = true) ∧
      (env.setup ≠ .selected →
        (main W env).closeCalls = 0 ∧ (main W env).readerStarted = false) := by
  have hrun := run_closeCalls W env.events
    (startProgram (InitialModel (some .link) .serial .log (some .cancel))) rfl
  have h0 : (startProgram (InitialModel (some .link) .serial .log
      (some .cancel))).fx.closeCalls = 0 := rfl
  rw [h0, Nat.zero_add] at hrun
  cases hs : env.setup with
  | failed err => simp [main, hs]
  | noSelection => simp [main, hs]
  | selected =>
    have ho := hopen hs
    simp only [main, hs, ho]
    refine ⟨trivial, fun _ => ⟨hrun, ?_, trivial⟩, fun h => absurd rfl h⟩
    rw [hrun]

/-- C7, amended, on a run in which two quit keys are handled, the first with a failing
close: three calls in all, none through a nil handle. -/
theorem main_close_calls_witness :
    (main sampleWidgets quitTwiceRun).closeOnNilHandle = false ∧
      quitKeys quitTwiceRun.events = 2 ∧
      (main sampleWidgets quitTwiceRun).closeCalls = 3 := by
  have h := main_close_calls sampleWidgets quitTwiceRun (fun _ => rfl)
  have hk : quitKeys quitTwiceRun.events = 2 := by decide
  refine ⟨h.1, hk, ?_⟩
  rw [(h.2.1 rfl).2.1, hk]

end CircuitEcho
